import Mathlib

/-!
# NewsAggr scraper: the RSS ingestion pipeline

A shallow embedding of `scraper/service/rss_scrape.go` (`RssScraper.Scrape`,
`RssScraper.Run`) together with the two models of `scraper/db/model.go`.

The feed parser (`gofeed.Parser.ParseURL`) is an input of the embedding: a function
from the endpoint URL to either an error or a decoded feed.  The article table is
a list of rows guarded by the `gorm:"unique"` constraint on `Article.Url`; a
batch insert is one all-or-nothing statement.  Goroutines of `Run` are
linearised by a `Schedule`, the order in which the per-source tasks take effect.
-/

namespace NewsAggr

/-! ## Data model -/

/-- Go `error` values seen by the scraper: the sentinel `gorm.ErrRecordNotFound`
(recognised through `errors.Is`) and every other error, kept by its text. -/
inductive GoError where
  | ErrRecordNotFound
  | other (text : String)
deriving DecidableEq

/-- The text of an error, as printed by `%v`. -/
def GoError.Error : GoError → String
  | .ErrRecordNotFound => "record not found"
  | .other text => text

/-- Go's `sql.NullString`. -/
structure NullString where
  String : String
  Valid : Bool
deriving DecidableEq

/-- The `gofeed.Image` fields read by the scraper. -/
structure Image where
  URL : String
deriving DecidableEq

/-- The `gofeed.Item` fields read by the scraper; `Image` is a nullable pointer. -/
structure Item where
  Title : String
  Link : String
  Image : Option Image
  Published : String
deriving DecidableEq

/-- The `gofeed.Feed` field read by the scraper. -/
structure Feed where
  Items : List Item
deriving DecidableEq

/-- The `db.Source` model (`ID` is the primary key of the embedded `gorm.Model`). -/
structure Source where
  ID : Nat
  Link : String
  Provider : String
  Category : String
deriving DecidableEq

/-- The `db.Article` model as written by the scraper.  The embedded `gorm.Model`
(row key and timestamps, assigned by the database) and the `Source` association
(left at its zero value) are not set by `Scrape` and are left out. -/
structure Article where
  SourceID : Nat
  Title : String
  Url : String
  Image : NullString
  PublishedDate : String
deriving DecidableEq

/-- The article table together with a log of the batch-insert calls it received
(each call: the submitted slice and the batch-size argument). -/
structure DB where
  articles : List Article
  calls : List (List Article × Nat)
deriving DecidableEq

/-- The parser `gofeed.Parser.ParseURL`, as a function of the endpoint. -/
abbrev Parser := String → Except GoError Feed

/-! ## The article store -/

/-- The error PostgreSQL reports for a violated unique constraint. -/
def duplicateKeyError : GoError :=
  .other "ERROR: duplicate key value violates unique constraint (SQLSTATE 23505)"

/-- The URLs of a list of articles. -/
def urls (rows : List Article) : List String :=
  rows.map Article.Url

/-- A slice can be inserted when its URLs are pairwise distinct and none of them
is stored yet (`gorm:"unique"` on `Article.Url`). -/
def insertable (rows value : List Article) : Bool :=
  decide (urls value).Nodup && (urls value).all (fun u => !(urls rows).contains u)

/-- The call `DB.CreateInBatches(&value, batchSize)` on the article table: a plain
insert, run as one transaction, that either stores the whole slice or fails with
the unique-constraint error and stores nothing. -/
def CreateInBatches (db : DB) (value : List Article) (batchSize : Nat) : Option GoError × DB :=
  let logged := db.calls ++ [(value, batchSize)]
  if insertable db.articles value then
    (none, { articles := db.articles ++ value, calls := logged })
  else
    (some duplicateKeyError, { articles := db.articles, calls := logged })

/-! ## `RssScraper.Scrape` -/

/-- The image computed in the loop body of `Scrape` (lines 41-45). -/
def buildImage (item : Item) : NullString :=
  let image : NullString := { String := "", Valid := false }
  match item.Image with
  | some img => { image with String := img.URL, Valid := true }
  | none => image

/-- The article built in the loop body of `Scrape` (lines 47-54). -/
def buildArticle (source : Source) (item : Item) : Article :=
  { SourceID := source.ID
    Title := item.Title
    Url := item.Link
    Image := buildImage item
    PublishedDate := item.Published }

/-- The loop of `Scrape` (lines 40-56): one article appended per item. -/
def buildArticles (source : Source) (items : List Item) : List Article :=
  items.foldl (fun articles item => articles ++ [buildArticle source item]) []

/-- `RssScraper.Scrape`: the returned error and the database afterwards. -/
def Scrape (parse : Parser) (source : Source) (db : DB) : Option GoError × DB :=
  match parse source.Link with
  | .error err => (some err, db)
  | .ok feed =>
    let articles := buildArticles source feed.Items
    if articles.length ≠ 0 then
      let result := CreateInBatches db articles articles.length
      match result.1 with
      | some err => (some err, result.2)
      | none => (none, result.2)
    else
      (none, db)

/-! ## `RssScraper.Run` -/

/-- The order in which the goroutines started by `Run` take effect: any
rearrangement of the loaded sources. -/
structure Schedule where
  order : List Source → List Source
  perm : ∀ sources, (order sources).Perm sources

/-- Goroutines take effect in the order they were started. -/
def Schedule.fifo : Schedule :=
  { order := fun sources => sources
    perm := fun sources => List.Perm.refl sources }

/-- Goroutines take effect in the reverse of the order they were started. -/
def Schedule.lifo : Schedule :=
  { order := fun sources => sources.reverse
    perm := fun sources => List.reverse_perm sources }

/-- The message appended to `errs` by a failing goroutine (line 95). -/
def scrapeFailure (src : Source) (err : GoError) : String :=
  "error scraping source " ++ src.Link ++ ": " ++ err.Error

/-- The goroutine bodies of `Run` (lines 90-98), executed in the given order on
the shared `errs` slice and the database. -/
def runTasks (parse : Parser) : List Source → List String → DB → List String × DB
  | [], errs, db => (errs, db)
  | src :: rest, errs, db =>
    let r := Scrape parse src db
    match r.1 with
    | some err => runTasks parse rest (errs ++ [scrapeFailure src err]) r.2
    | none => runTasks parse rest errs r.2

/-- The value of `errs` after `wg.Wait()` and the database at that point. -/
def RunErrs (parse : Parser) (sched : Schedule) (sources : List Source) (db : DB) :
    List String × DB :=
  runTasks parse (sched.order sources) [] db

/-- `RssScraper.Run`, given the result of `DB.Find(&sources)`. -/
def Run (parse : Parser) (find : Except GoError (List Source)) (sched : Schedule) (db : DB) :
    Option GoError × DB :=
  match find with
  | .error err =>
    if err = GoError.ErrRecordNotFound then
      (some (.other "no rss source found in database"), db)
    else
      (some err, db)
  | .ok sources =>
    let r := RunErrs parse sched sources db
    if r.1.length = 0 then
      (none, r.2)
    else
      (some (.other ("error: \n" ++ "\n".intercalate r.1)), r.2)

/-- The call `DB.Find(&sources)` on the sources table: every registered source; an
empty table gives an empty slice and a nil error (`gorm.ErrRecordNotFound` is
returned by `First`, `Take` and `Last` only).  A failure of the database itself,
when there is one, is returned by its text. -/
def Find (fault : Option String) (registry : List Source) : Except GoError (List Source) :=
  match fault with
  | some text => .error (.other text)
  | none => .ok registry

/-- The outcome of each goroutine of a run, in the order they take effect: the
source and the error its `Scrape` returned. -/
def runOutcomes (parse : Parser) : List Source → DB → List (Source × Option GoError)
  | [], _ => []
  | src :: rest, db =>
    (src, (Scrape parse src db).1) :: runOutcomes parse rest (Scrape parse src db).2

/-- The number of stored articles owned by a source:
`Model(&db.Article{}).Where("source_id = ?", id).Count(&count)`. -/
def countBySource (db : DB) (id : Nat) : Nat :=
  (db.articles.filter (fun a => a.SourceID == id)).length

/-- The parser whose feeds are those of `parse` with every item's image removed. -/
def withoutImages (parse : Parser) : Parser :=
  fun link =>
    match parse link with
    | .ok feed => .ok { Items := feed.Items.map (fun item => { item with Image := none }) }
    | .error err => .error err

/-- The items a source's feed decodes to; none when the fetch or parse fails. -/
def feedItems (parse : Parser) (source : Source) : List Item :=
  match parse source.Link with
  | .ok feed => feed.Items
  | .error _ => []

/-- The slice `Scrape` builds for a source (empty when the fetch or parse fails). -/
def batchOf (parse : Parser) (source : Source) : List Article :=
  buildArticles source (feedItems parse source)

/-- A source is settled on a table when its `Scrape` cannot add a row to it: the
source has nothing to insert or its slice is rejected by the unique constraint. -/
def settled (parse : Parser) (rows : List Article) (source : Source) : Bool :=
  (batchOf parse source).isEmpty || !insertable rows (batchOf parse source)

/-! ## A small concrete setting -/

/-- An item with the given link and no image. -/
def plainItem (link : String) : Item :=
  { Title := "t", Link := link, Image := none, Published := "d" }

/-- An item with the given link and an image. -/
def pictureItem (link : String) : Item :=
  { Title := "t", Link := link, Image := some { URL := "i" }, Published := "d" }

/-- Three registered sources. -/
def srcA : Source := { ID := 1, Link := "A", Provider := "pa", Category := "c" }

def srcB : Source := { ID := 2, Link := "B", Provider := "pb", Category := "c" }

def srcC : Source := { ID := 3, Link := "C", Provider := "pc", Category := "c" }

/-- A source whose feed has no entries. -/
def srcE : Source := { ID := 4, Link := "E", Provider := "pe", Category := "c" }

/-- A parser for the endpoints above: `A` and `B` decode to five items each, `E`
decodes to no item, every other endpoint times out. -/
def demoParser : Parser := fun link =>
  if link = "A" then
    .ok { Items := [pictureItem "a1", plainItem "a2", plainItem "a3", plainItem "a4",
                    plainItem "a5"] }
  else if link = "B" then
    .ok { Items := [plainItem "b1", plainItem "b2", plainItem "b3", plainItem "b4",
                    plainItem "b5"] }
  else if link = "E" then
    .ok { Items := [] }
  else
    .error (.other "timeout")

/-- The database with no article and no call made. -/
def emptyDB : DB := { articles := [], calls := [] }

/-- A table that already holds the first article of the feed of `srcA`. -/
def staleDB : DB := { articles := [buildArticle srcA (pictureItem "a1")], calls := [] }

/-- A table that holds one earlier article of `srcA`, under a URL no feed lists. -/
def olderDB : DB := { articles := [buildArticle srcA (plainItem "a0")], calls := [] }

/-- A parser that decodes every endpoint to the same single item. -/
def sharedParser : Parser := fun _ => .ok { Items := [plainItem "x"] }

/-! ## `Scheduler` (`service/schedule.go`) -/

/-- The `cron.Cron` fields the scheduler acts on: the specs of the registered jobs
and whether the cron was started. -/
structure Cron where
  entries : List String
  running : Bool
deriving DecidableEq

/-- The `Scheduler` and what its job acts on: the cron `c`, the records written
through `logger.Error` (message and `error` attribute), the database of the
scraper, and the value returned by each invocation of `Run` so far. -/
structure Scheduler where
  c : Cron
  logs : List (String × GoError)
  db : DB
  runs : List (Option GoError)
deriving DecidableEq

/-- `NewScheduler`: a cron with no job, not started. -/
def NewScheduler (db : DB) : Scheduler :=
  { c := { entries := [], running := false }, logs := [], db := db, runs := [] }

/-- The function registered by `Start` (lines 28-34), given the result of the
listing made by this invocation of `Run`. -/
def tickJob (parse : Parser) (find : Except GoError (List Source)) (sched : Schedule)
    (s : Scheduler) : Scheduler :=
  let r := Run parse find sched s.db
  match r.1 with
  | some err =>
    { s with db := r.2, runs := s.runs ++ [r.1],
             logs := s.logs ++ [("Failed to run RSS scraping", err)] }
  | none => { s with db := r.2, runs := s.runs ++ [r.1] }

/-- `Scheduler.Start`, given the error `AddFunc` returns for the spec (nil when
the spec is accepted). -/
def Start (addFuncErr : Option GoError) (s : Scheduler) : Scheduler :=
  match addFuncErr with
  | some err =>
    { s with logs := s.logs ++ [("Failed to set up cron job for RSS scraper", err)] }
  | none =>
    { s with c := { entries := s.c.entries ++ ["0 0 * * * *"], running := true } }

/-- One due time of the cron: when started, it invokes the job of every entry. -/
def cronTick (parse : Parser) (sched : Schedule) (find : Except GoError (List Source))
    (s : Scheduler) : Scheduler :=
  if s.c.running then
    s.c.entries.foldl (fun st _ => tickJob parse find sched st) s
  else
    s

/-- Successive due times of the cron, each with the listing result of its run. -/
def cronTicks (parse : Parser) (sched : Schedule) :
    List (Except GoError (List Source)) → Scheduler → Scheduler
  | [], s => s
  | find :: rest, s => cronTicks parse sched rest (cronTick parse sched find s)

/-! ## Pagination parameters (`api/server.go`) -/

/-- Go's `int` on a 64-bit platform: the value a result wraps to. -/
def wrapInt (x : Int) : Int :=
  (x + 2 ^ 63) % 2 ^ 64 - 2 ^ 63

/-- The value of a run of decimal digits, none when a character is not a digit. -/
def digitsValue : List Char → Nat → Option Nat
  | [], acc => some acc
  | ch :: rest, acc =>
    if ch.isDigit then digitsValue rest (acc * 10 + (ch.toNat - 48)) else none

/-- The call `strconv.Atoi(s)`: an optional sign followed by at least one decimal
digit, the value within the range of `int`; a syntax or range error otherwise. -/
def Atoi (s : String) : Except GoError Int :=
  match s.toList with
  | [] => .error (.other "invalid syntax")
  | ch :: rest =>
    let digits := if ch = '-' ∨ ch = '+' then rest else ch :: rest
    if digits.isEmpty then
      .error (.other "invalid syntax")
    else
      match digitsValue digits 0 with
      | none => .error (.other "invalid syntax")
      | some n =>
        let v : Int := if ch = '-' then -(n : Int) else (n : Int)
        if -(2 ^ 63) ≤ v ∧ v ≤ 2 ^ 63 - 1 then .ok v
        else .error (.other "value out of range")

/-- The body of an error response. -/
structure ErrorResponse where
  Message : String
deriving DecidableEq

/-- The `gin.Context` as used by the paging helper: the query parameters of the
request and the responses written so far (status code and body). -/
structure Context where
  params : List (String × String)
  responses : List (Nat × ErrorResponse)
deriving DecidableEq

/-- The call `ctx.Query(key)`: the first value of the key, `""` when absent. -/
def Context.Query (ctx : Context) (key : String) : String :=
  match ctx.params.lookup key with
  | some value => value
  | none => ""

/-- The call `ctx.JSON(code, body)`. -/
def Context.JSON (ctx : Context) (code : Nat) (body : ErrorResponse) : Context :=
  { ctx with responses := ctx.responses ++ [(code, body)] }

def maxPageSize : Int := 10

def StatusBadRequest : Nat := 400

/-- `Server.GetPagingParams`: the returned pair and the context afterwards. -/
def GetPagingParams (ctx : Context) : (Int × Int) × Context :=
  match Atoi (ctx.Query "page_id") with
  | .error _ =>
    ((0, 0), ctx.JSON StatusBadRequest { Message := "Invalid page_id parameter" })
  | .ok pageID =>
    if pageID < 1 then
      ((0, 0), ctx.JSON StatusBadRequest { Message := "Invalid page_id parameter" })
    else
      match Atoi (ctx.Query "page_size") with
      | .error _ =>
        ((0, 0), ctx.JSON StatusBadRequest { Message := "Invalid page_size parameter" })
      | .ok pageSize =>
        if pageSize < 1 ∨ pageSize > maxPageSize then
          ((0, 0), ctx.JSON StatusBadRequest { Message := "Invalid page_size parameter" })
        else
          ((pageID, pageSize), ctx)

/-- The paging part of `Server.ListArticles` (lines 82-90; the same lines open
`Server.ListSources`): none when the handler returns early, otherwise the
arguments passed to `Limit` and `Offset`. -/
def ListArticlesPaging (ctx : Context) : Option (Int × Int) :=
  let r := GetPagingParams ctx
  let pageID := r.1.1
  let pageSize := r.1.2
  if pageID = 0 ∨ pageSize = 0 then
    none
  else
    some (pageSize, wrapInt (wrapInt (pageID - 1) * pageSize))

/-- A request for page 3 with 5 items per page. -/
def pagedRequest : Context :=
  { params := [("page_id", "3"), ("page_size", "5")], responses := [] }

/-- A request for the last page number an `int` can hold, 10 items per page. -/
def hugePageRequest : Context :=
  { params := [("page_id", "9223372036854775807"), ("page_size", "10")], responses := [] }

/-! ## Basic facts about `Scrape` -/

theorem buildArticles_foldl (source : Source) (items : List Item) (acc : List Article) :
    items.foldl (fun articles item => articles ++ [buildArticle source item]) acc
      = acc ++ items.map (buildArticle source) := by
  induction items generalizing acc with
  | nil => simp
  | cons item rest ih => simp [List.foldl_cons, ih]

theorem buildArticles_eq_map (source : Source) (items : List Item) :
    buildArticles source items = items.map (buildArticle source) := by
  simp [buildArticles, buildArticles_foldl]

theorem buildArticles_length (source : Source) (items : List Item) :
    (buildArticles source items).length = items.length := by
  simp [buildArticles_eq_map]

theorem urls_buildArticles (source : Source) (items : List Item) :
    urls (buildArticles source items) = items.map Item.Link := by
  simp [urls, buildArticles_eq_map, buildArticle, Function.comp_def]

theorem Scrape_error (parse : Parser) (source : Source) (db : DB) (err : GoError)
    (h : parse source.Link = .error err) : Scrape parse source db = (some err, db) := by
  simp [Scrape, h]

theorem Scrape_empty (parse : Parser) (source : Source) (db : DB) (feed : Feed)
    (h : parse source.Link = .ok feed) (hnil : feed.Items = []) :
    Scrape parse source db = (none, db) := by
  simp [Scrape, h, hnil, buildArticles]

theorem Scrape_nonempty (parse : Parser) (source : Source) (db : DB) (feed : Feed)
    (h : parse source.Link = .ok feed) (hne : feed.Items ≠ []) :
    Scrape parse source db =
      CreateInBatches db (buildArticles source feed.Items) feed.Items.length := by
  have hlen : feed.Items.length ≠ 0 := fun h0 => hne (List.length_eq_zero.mp h0)
  simp only [Scrape, h, buildArticles_length, hlen, ne_eq, not_false_eq_true, if_true]
  cases hres : (CreateInBatches db (buildArticles source feed.Items) feed.Items.length).1 <;>
    simp only [← hres]

theorem CreateInBatches_fst (db : DB) (value : List Article) (n : Nat) :
    (CreateInBatches db value n).1
      = if insertable db.articles value then none else some duplicateKeyError := by
  unfold CreateInBatches
  split <;> rfl

theorem CreateInBatches_calls (db : DB) (value : List Article) (n : Nat) :
    (CreateInBatches db value n).2.calls = db.calls ++ [(value, n)] := by
  unfold CreateInBatches
  split <;> rfl

theorem CreateInBatches_articles (db : DB) (value : List Article) (n : Nat) :
    (CreateInBatches db value n).2.articles
      = if insertable db.articles value then db.articles ++ value else db.articles := by
  unfold CreateInBatches
  split <;> rfl

theorem insertable_congr (rows value value' : List Article) (h : urls value = urls value') :
    insertable rows value = insertable rows value' := by
  simp [insertable, h]

theorem Scrape_withoutImages_fst (parse : Parser) (source : Source) (db : DB) :
    (Scrape (withoutImages parse) source db).1 = (Scrape parse source db).1 := by
  cases hp : parse source.Link with
  | error err =>
    have hp' : withoutImages parse source.Link = .error err := by simp [withoutImages, hp]
    rw [Scrape_error _ _ _ _ hp', Scrape_error _ _ _ _ hp]
  | ok feed =>
    have hp' : withoutImages parse source.Link
        = .ok { Items := feed.Items.map (fun item => { item with Image := none }) } := by
      simp [withoutImages, hp]
    by_cases hnil : feed.Items = []
    · rw [Scrape_empty _ _ _ _ hp' (by simp [hnil]), Scrape_empty _ _ _ _ hp hnil]
    · rw [Scrape_nonempty _ _ _ _ hp' (by simpa using hnil), Scrape_nonempty _ _ _ _ hp hnil,
        CreateInBatches_fst, CreateInBatches_fst]
      rw [insertable_congr db.articles _ (buildArticles source feed.Items)]
      simp [urls_buildArticles, Function.comp_def]

/-! ## The article table across `Scrape` and `Run` -/

theorem insertable_iff (rows value : List Article) :
    insertable rows value = true ↔
      (urls value).Nodup ∧ ∀ u ∈ urls value, u ∉ urls rows := by
  simp [insertable]

theorem insertable_nil (rows : List Article) : insertable rows [] = true := by
  simp [insertable, urls]

theorem Scrape_articles (parse : Parser) (source : Source) (db : DB) :
    (Scrape parse source db).2.articles
      = if insertable db.articles (batchOf parse source)
        then db.articles ++ batchOf parse source else db.articles := by
  cases hp : parse source.Link with
  | error err =>
    have hb : batchOf parse source = [] := by simp [batchOf, feedItems, hp, buildArticles]
    rw [Scrape_error _ _ _ _ hp, hb]
    simp [insertable_nil]
  | ok feed =>
    have hb : batchOf parse source = buildArticles source feed.Items := by
      simp [batchOf, feedItems, hp]
    by_cases hnil : feed.Items = []
    · rw [Scrape_empty _ _ _ _ hp hnil, hb, hnil]
      simp [buildArticles, insertable_nil]
    · rw [Scrape_nonempty _ _ _ _ hp hnil, CreateInBatches_articles, hb]

theorem Scrape_fst (parse : Parser) (source : Source) (db : DB) (feed : Feed)
    (hp : parse source.Link = .ok feed) :
    (Scrape parse source db).1
      = if insertable db.articles (batchOf parse source) then none
        else some duplicateKeyError := by
  have hb : batchOf parse source = buildArticles source feed.Items := by
    simp [batchOf, feedItems, hp]
  by_cases hnil : feed.Items = []
  · rw [Scrape_empty _ _ _ _ hp hnil, hb, hnil]
    simp [buildArticles, insertable_nil]
  · rw [Scrape_nonempty _ _ _ _ hp hnil, CreateInBatches_fst, hb]

theorem Scrape_articles_subset (parse : Parser) (source : Source) (db : DB) :
    db.articles ⊆ (Scrape parse source db).2.articles := by
  rw [Scrape_articles]
  split
  · exact List.subset_append_left _ _
  · exact List.Subset.refl _

theorem runTasks_snd (parse : Parser) (l : List Source) (errs : List String) (db : DB) :
    (runTasks parse l errs db).2 = (runTasks parse l [] db).2 := by
  induction l generalizing errs db with
  | nil => rfl
  | cons src rest ih =>
    simp only [runTasks]
    cases (Scrape parse src db).1 with
    | none => exact ih errs _
    | some err => simp only []; rw [ih (errs ++ _), ih ([] ++ _)]

theorem runTasks_cons_snd (parse : Parser) (src : Source) (rest : List Source) (db : DB) :
    (runTasks parse (src :: rest) [] db).2
      = (runTasks parse rest [] (Scrape parse src db).2).2 := by
  simp only [runTasks]
  cases (Scrape parse src db).1 with
  | none => rfl
  | some err => simp only []; rw [runTasks_snd]

theorem runTasks_articles_subset (parse : Parser) (l : List Source) (db : DB) :
    db.articles ⊆ (runTasks parse l [] db).2.articles := by
  induction l generalizing db with
  | nil => exact List.Subset.refl _
  | cons src rest ih =>
    rw [runTasks_cons_snd]
    exact List.Subset.trans (Scrape_articles_subset parse src db) (ih _)

theorem runTasks_fst (parse : Parser) (l : List Source) (errs : List String) (db : DB) :
    (runTasks parse l errs db).1
      = errs ++ (runOutcomes parse l db).filterMap
          (fun p => p.2.map (fun err =>
            "error scraping source " ++ p.1.Link ++ ": " ++ err.Error)) := by
  induction l generalizing errs db with
  | nil => simp [runTasks, runOutcomes]
  | cons src rest ih =>
    simp only [runTasks, runOutcomes]
    cases h : (Scrape parse src db).1 with
    | none => simp [ih]
    | some err => simp [ih, scrapeFailure]

theorem runOutcomes_fst (parse : Parser) (l : List Source) (db : DB) :
    (runOutcomes parse l db).map Prod.fst = l := by
  induction l generalizing db with
  | nil => rfl
  | cons src rest ih => simp [runOutcomes, ih]

theorem Scrape_success_mem (parse : Parser) (source : Source) (db : DB) (feed : Feed)
    (hp : parse source.Link = .ok feed) (hok : (Scrape parse source db).1 = none)
    (item : Item) (hitem : item ∈ feed.Items) :
    buildArticle source item ∈ (Scrape parse source db).2.articles := by
  have hb : batchOf parse source = buildArticles source feed.Items := by
    simp [batchOf, feedItems, hp]
  rw [Scrape_fst _ _ _ _ hp] at hok
  rw [Scrape_articles]
  by_cases hins : insertable db.articles (batchOf parse source) = true
  · rw [if_pos hins, hb, buildArticles_eq_map]
    exact List.mem_append_right _ (List.mem_map_of_mem _ hitem)
  · rw [if_neg hins] at hok
    cases hok

theorem runOutcomes_success_mem (parse : Parser) (l : List Source) (db : DB)
    (src : Source) (feed : Feed) (item : Item)
    (hmem : (src, none) ∈ runOutcomes parse l db)
    (hp : parse src.Link = .ok feed) (hitem : item ∈ feed.Items) :
    buildArticle src item ∈ (runTasks parse l [] db).2.articles := by
  induction l generalizing db with
  | nil => simp [runOutcomes] at hmem
  | cons s rest ih =>
    rw [runTasks_cons_snd]
    simp only [runOutcomes, List.mem_cons, Prod.mk.injEq] at hmem
    rcases hmem with ⟨hs, hnone⟩ | hrest
    · subst hs
      exact runTasks_articles_subset parse rest _
        (Scrape_success_mem parse src db feed hp hnone.symm item hitem)
    · exact ih _ hrest

theorem Run_ok_snd (parse : Parser) (sources : List Source) (sched : Schedule) (db : DB) :
    (Run parse (.ok sources) sched db).2 = (RunErrs parse sched sources db).2 := by
  simp only [Run]
  split <;> rfl

theorem Run_ok_fst (parse : Parser) (sources : List Source) (sched : Schedule) (db : DB) :
    (Run parse (.ok sources) sched db).1
      = if (RunErrs parse sched sources db).1.length = 0 then none
        else some (.other ("error: \n" ++ "\n".intercalate (RunErrs parse sched sources db).1)) := by
  simp only [Run]
  split <;> rfl

theorem perm_three (a b c : Source) (l : List Source) (h : l.Perm [a, b, c]) :
    l = [a, b, c] ∨ l = [b, a, c] ∨ l = [b, c, a] ∨ l = [a, c, b] ∨ l = [c, a, b] ∨
      l = [c, b, a] := by
  have hmem := List.mem_permutations'.mpr h
  simpa [List.permutations', List.permutations'Aux] using hmem

/-! ## Settled sources and the unique constraint -/

theorem settled_iff (parse : Parser) (rows : List Article) (source : Source) :
    settled parse rows source = true ↔
      batchOf parse source = [] ∨ insertable rows (batchOf parse source) = false := by
  simp [settled, List.isEmpty_iff]

theorem insertable_false_mono (rows rows' value : List Article) (hsub : rows ⊆ rows')
    (h : insertable rows value = false) : insertable rows' value = false := by
  cases h' : insertable rows' value with
  | false => rfl
  | true =>
    rw [insertable_iff] at h'
    have hins : insertable rows value = true := by
      rw [insertable_iff]
      refine ⟨h'.1, fun u hu hmem => h'.2 u hu ?_⟩
      obtain ⟨a, ha, rfl⟩ := List.mem_map.mp hmem
      exact List.mem_map_of_mem _ (hsub ha)
    rw [h] at hins
    cases hins

theorem settled_mono (parse : Parser) (rows rows' : List Article) (source : Source)
    (hsub : rows ⊆ rows') (h : settled parse rows source = true) :
    settled parse rows' source = true := by
  rw [settled_iff] at h ⊢
  rcases h with h | h
  · exact Or.inl h
  · exact Or.inr (insertable_false_mono rows rows' _ hsub h)

theorem insertable_append_self (rows value : List Article) (hne : value ≠ []) :
    insertable (rows ++ value) value = false := by
  cases h : insertable (rows ++ value) value with
  | false => rfl
  | true =>
    rw [insertable_iff] at h
    obtain ⟨a, rest, rfl⟩ := List.exists_cons_of_ne_nil hne
    exact absurd (List.mem_map_of_mem Article.Url
      (List.mem_append_right rows (List.mem_cons_self a rest)))
      (h.2 a.Url (List.mem_map_of_mem Article.Url (List.mem_cons_self a rest)))

theorem Scrape_settles (parse : Parser) (source : Source) (db : DB) :
    settled parse (Scrape parse source db).2.articles source = true := by
  rw [settled_iff, Scrape_articles]
  by_cases hnil : batchOf parse source = []
  · exact Or.inl hnil
  · right
    by_cases hins : insertable db.articles (batchOf parse source) = true
    · rw [if_pos hins]
      exact insertable_append_self _ _ hnil
    · rw [if_neg hins]
      simpa using hins

theorem Scrape_articles_of_settled (parse : Parser) (source : Source) (db : DB)
    (h : settled parse db.articles source = true) :
    (Scrape parse source db).2.articles = db.articles := by
  rw [Scrape_articles]
  rw [settled_iff] at h
  rcases h with h | h
  · rw [h]; simp
  · rw [h]; simp

theorem runTasks_settles (parse : Parser) (l : List Source) (db : DB) :
    ∀ s ∈ l, settled parse (runTasks parse l [] db).2.articles s = true := by
  induction l generalizing db with
  | nil => intro s hs; cases hs
  | cons src rest ih =>
    intro s hs
    rw [runTasks_cons_snd]
    rcases List.mem_cons.mp hs with rfl | hrest
    · exact settled_mono parse _ _ s (runTasks_articles_subset parse rest _)
        (Scrape_settles parse s db)
    · exact ih _ s hrest

theorem runTasks_of_settled (parse : Parser) (l : List Source) (db : DB)
    (h : ∀ s ∈ l, settled parse db.articles s = true) :
    (runTasks parse l [] db).2.articles = db.articles := by
  induction l generalizing db with
  | nil => rfl
  | cons src rest ih =>
    rw [runTasks_cons_snd]
    have hsrc := Scrape_articles_of_settled parse src db (h src (List.mem_cons_self _ _))
    rw [ih _ (fun s hs => by rw [hsrc]; exact h s (List.mem_cons_of_mem _ hs)), hsrc]

theorem Scrape_urls_nodup (parse : Parser) (source : Source) (db : DB)
    (h : (urls db.articles).Nodup) : (urls (Scrape parse source db).2.articles).Nodup := by
  rw [Scrape_articles]
  by_cases hins : insertable db.articles (batchOf parse source) = true
  · rw [if_pos hins]
    rw [insertable_iff] at hins
    simp only [urls, List.map_append]
    exact List.nodup_append.mpr ⟨h, hins.1, fun u hu hv => hins.2 u hv hu⟩
  · rw [if_neg hins]
    exact h

theorem runTasks_urls_nodup (parse : Parser) (l : List Source) (db : DB)
    (h : (urls db.articles).Nodup) : (urls (runTasks parse l [] db).2.articles).Nodup := by
  induction l generalizing db with
  | nil => exact h
  | cons src rest ih =>
    rw [runTasks_cons_snd]
    exact ih _ (Scrape_urls_nodup parse src db h)

/-! ## Runs over fresh, pairwise distinct URLs -/

theorem urls_batchOf (parse : Parser) (source : Source) :
    urls (batchOf parse source) = (feedItems parse source).map Item.Link := by
  simp [batchOf, urls_buildArticles]

theorem runTasks_fresh (parse : Parser) (l : List Source) (errs : List String) (db : DB)
    (hfeeds : ∀ s ∈ l, ∃ feed, parse s.Link = .ok feed)
    (hnew : ∀ s ∈ l, ∀ item ∈ feedItems parse s, item.Link ∉ urls db.articles)
    (hdistinct : ((l.flatMap (feedItems parse)).map Item.Link).Nodup) :
    (runTasks parse l errs db).1 = errs ∧
    (runTasks parse l errs db).2.articles = db.articles ++ l.flatMap (batchOf parse) := by
  induction l generalizing db with
  | nil => simp [runTasks]
  | cons s rest ih =>
    obtain ⟨feed, hfeed⟩ := hfeeds s (List.mem_cons_self _ _)
    rw [List.flatMap_cons, List.map_append, List.nodup_append] at hdistinct
    obtain ⟨hnd, hndrest, hdisj⟩ := hdistinct
    have hins : insertable db.articles (batchOf parse s) = true := by
      rw [insertable_iff, urls_batchOf]
      refine ⟨hnd, fun u hu => ?_⟩
      obtain ⟨item, hitem, rfl⟩ := List.mem_map.mp hu
      exact hnew s (List.mem_cons_self _ _) item hitem
    have hfst : (Scrape parse s db).1 = none := by
      rw [Scrape_fst parse s db feed hfeed, if_pos hins]
    have hart : (Scrape parse s db).2.articles = db.articles ++ batchOf parse s := by
      rw [Scrape_articles, if_pos hins]
    have hstep : runTasks parse (s :: rest) errs db
        = runTasks parse rest errs (Scrape parse s db).2 := by
      simp only [runTasks, hfst]
    have hnew' : ∀ s' ∈ rest, ∀ item ∈ feedItems parse s',
        item.Link ∉ urls (Scrape parse s db).2.articles := by
      intro s' hs' item hitem hmem
      rw [hart, urls, List.map_append] at hmem
      have hin : item.Link ∈ (rest.flatMap (feedItems parse)).map Item.Link :=
        List.mem_map_of_mem _ (List.mem_flatMap.mpr ⟨s', hs', hitem⟩)
      rcases List.mem_append.mp hmem with hold | hbatch
      · exact hnew s' (List.mem_cons_of_mem _ hs') item hitem hold
      · have hb : item.Link ∈ (feedItems parse s).map Item.Link := by
          rw [← urls_batchOf]; exact hbatch
        exact hdisj hb hin
    obtain ⟨h1, h2⟩ := ih (Scrape parse s db).2
      (fun s' hs' => hfeeds s' (List.mem_cons_of_mem _ hs')) hnew' hndrest
    rw [hstep]
    refine ⟨h1, ?_⟩
    rw [h2, hart, List.flatMap_cons, List.append_assoc]

theorem filter_batchOf_same (parse : Parser) (source : Source) :
    (batchOf parse source).filter (fun a => a.SourceID == source.ID) = batchOf parse source := by
  rw [List.filter_eq_self]
  intro a ha
  simp only [batchOf, buildArticles_eq_map, List.mem_map] at ha
  obtain ⟨item, _, rfl⟩ := ha
  simp [buildArticle]

theorem filter_batchOf_other (parse : Parser) (source : Source) (id : Nat)
    (hne : source.ID ≠ id) :
    (batchOf parse source).filter (fun a => a.SourceID == id) = [] := by
  rw [List.filter_eq_nil_iff]
  intro a ha
  simp only [batchOf, buildArticles_eq_map, List.mem_map] at ha
  obtain ⟨item, _, rfl⟩ := ha
  simpa [buildArticle] using hne

theorem filter_flatMap_batchOf_absent (parse : Parser) (l : List Source) (id : Nat)
    (habs : id ∉ l.map Source.ID) :
    (l.flatMap (batchOf parse)).filter (fun a => a.SourceID == id) = [] := by
  induction l with
  | nil => rfl
  | cons s rest ih =>
    simp only [List.map_cons, List.mem_cons, not_or] at habs
    rw [List.flatMap_cons, List.filter_append,
      filter_batchOf_other parse s id (fun h => habs.1 h.symm), ih habs.2]
    rfl

theorem filter_flatMap_batchOf_mem (parse : Parser) (l : List Source) (source : Source)
    (hids : (l.map Source.ID).Nodup) (hmem : source ∈ l) :
    ((l.flatMap (batchOf parse)).filter (fun a => a.SourceID == source.ID)).length
      = (batchOf parse source).length := by
  induction l with
  | nil => cases hmem
  | cons s rest ih =>
    rw [List.map_cons, List.nodup_cons] at hids
    rw [List.flatMap_cons, List.filter_append, List.length_append]
    rcases List.mem_cons.mp hmem with rfl | hrest
    · rw [filter_batchOf_same, filter_flatMap_batchOf_absent parse rest _ hids.1]
      rfl
    · have hne : s.ID ≠ source.ID := fun h =>
        hids.1 (h ▸ List.mem_map_of_mem Source.ID hrest)
      rw [filter_batchOf_other parse s _ hne, ih hids.2 hrest]
      simp

/-! ## Claims about `Scrape` -/

/-- C1: when the parser decodes the source's feed to a non-empty item list, `Scrape`
makes exactly one batch-insert call; the submitted slice has one article per item,
in order, with `Title`, `Url`, `PublishedDate` copied from the item's `Title`,
`Link`, `Published` and `SourceID` equal to the source's `ID`; the batch-size
argument is the number of items. -/
theorem Scrape_submits_one_batch (parse : Parser) (source : Source) (db : DB) (feed : Feed)
    (hparse : parse source.Link = .ok feed) (hne : feed.Items ≠ []) :
    ∃ batch : List Article,
      (Scrape parse source db).2.calls = db.calls ++ [(batch, feed.Items.length)] ∧
      batch.length = feed.Items.length ∧
      ∀ (i : Nat) (hi : i < feed.Items.length) (hb : i < batch.length),
        (batch.get ⟨i, hb⟩).Title = (feed.Items.get ⟨i, hi⟩).Title ∧
        (batch.get ⟨i, hb⟩).Url = (feed.Items.get ⟨i, hi⟩).Link ∧
        (batch.get ⟨i, hb⟩).PublishedDate = (feed.Items.get ⟨i, hi⟩).Published ∧
        (batch.get ⟨i, hb⟩).SourceID = source.ID := by
  refine ⟨buildArticles source feed.Items, ?_, buildArticles_length source feed.Items, ?_⟩
  · rw [Scrape_nonempty parse source db feed hparse hne]
    unfold CreateInBatches
    split <;> rfl
  · intro i hi hb
    simp [buildArticles_eq_map, buildArticle]

theorem Scrape_submits_one_batch_witness :
    ∃ batch : List Article,
      (Scrape demoParser srcA emptyDB).2.calls = emptyDB.calls ++ [(batch, 5)] ∧
      batch.length = 5 := by
  obtain ⟨batch, hcalls, hlen, _⟩ :=
    Scrape_submits_one_batch demoParser srcA emptyDB
      { Items := [pictureItem "a1", plainItem "a2", plainItem "a3", plainItem "a4",
                  plainItem "a5"] } rfl (by simp)
  exact ⟨batch, hcalls, hlen⟩

/-- C2: the slice `Scrape` submits has one article per feed item, and the article of
each item has the null image (`Valid = false`, `String = ""`) exactly when the
item has no image, and otherwise has `Valid = true` with `String` the item's
image URL; removing every image from the feed leaves the error returned by
`Scrape` unchanged, so an absent image is never the cause of an error. -/
theorem Scrape_image_mapping (parse : Parser) (source : Source) (db : DB) (feed : Feed)
    (hparse : parse source.Link = .ok feed) (hne : feed.Items ≠ []) :
    (∃ batch : List Article,
      (Scrape parse source db).2.calls = db.calls ++ [(batch, feed.Items.length)] ∧
      batch.length = feed.Items.length ∧
      ∀ (i : Nat) (hi : i < feed.Items.length) (hb : i < batch.length),
        ((feed.Items.get ⟨i, hi⟩).Image = none ↔
          ((batch.get ⟨i, hb⟩).Image.Valid = false ∧ (batch.get ⟨i, hb⟩).Image.String = "")) ∧
        (∀ img : Image, (feed.Items.get ⟨i, hi⟩).Image = some img →
          (batch.get ⟨i, hb⟩).Image.Valid = true ∧
          (batch.get ⟨i, hb⟩).Image.String = img.URL)) ∧
    (Scrape (withoutImages parse) source db).1 = (Scrape parse source db).1 := by
  refine ⟨⟨buildArticles source feed.Items, ?_, buildArticles_length source feed.Items, ?_⟩,
    Scrape_withoutImages_fst parse source db⟩
  · rw [Scrape_nonempty parse source db feed hparse hne, CreateInBatches_calls]
  · intro i hi hb
    cases himg : (feed.Items.get ⟨i, hi⟩).Image with
    | none =>
      have himg' : feed.Items[i].Image = none := himg
      simp [buildArticles_eq_map, buildArticle, buildImage, himg']
    | some img =>
      have himg' : feed.Items[i].Image = some img := himg
      simp [buildArticles_eq_map, buildArticle, buildImage, himg']

theorem Scrape_image_mapping_witness :
    (∃ batch : List Article,
      (Scrape demoParser srcA emptyDB).2.calls = emptyDB.calls ++ [(batch, 5)] ∧
      batch.length = 5) ∧
    (Scrape (withoutImages demoParser) srcA emptyDB).1 = (Scrape demoParser srcA emptyDB).1 := by
  obtain ⟨⟨batch, hcalls, hlen, _⟩, herr⟩ :=
    Scrape_image_mapping demoParser srcA emptyDB
      { Items := [pictureItem "a1", plainItem "a2", plainItem "a3", plainItem "a4",
                  plainItem "a5"] } rfl (by simp)
  exact ⟨⟨batch, hcalls, hlen⟩, herr⟩

/-- C3: when the source's feed decodes to zero items, `Scrape` returns nil, makes
no call to the article store and leaves the stored articles unchanged. -/
theorem Scrape_empty_feed (parse : Parser) (source : Source) (db : DB) (feed : Feed)
    (hparse : parse source.Link = .ok feed) (hnil : feed.Items = []) :
    (Scrape parse source db).1 = none ∧
    (Scrape parse source db).2.calls = db.calls ∧
    (Scrape parse source db).2.articles = db.articles := by
  rw [Scrape_empty parse source db feed hparse hnil]
  exact ⟨rfl, rfl, rfl⟩

theorem Scrape_empty_feed_witness :
    (Scrape demoParser srcE emptyDB).1 = none ∧
    (Scrape demoParser srcE emptyDB).2.calls = emptyDB.calls ∧
    (Scrape demoParser srcE emptyDB).2.articles = emptyDB.articles :=
  Scrape_empty_feed demoParser srcE emptyDB { Items := [] } rfl rfl

/-- C4: when the fetch or parse of the source's feed fails, `Scrape` returns the
parser's error itself and the database (stored articles and calls received) is
the one it started from. -/
theorem Scrape_parse_failure (parse : Parser) (source : Source) (db : DB) (err : GoError)
    (hparse : parse source.Link = .error err) :
    (Scrape parse source db).1 = some err ∧ (Scrape parse source db).2 = db := by
  rw [Scrape_error parse source db err hparse]
  exact ⟨rfl, rfl⟩

theorem Scrape_parse_failure_witness :
    (Scrape demoParser srcC emptyDB).1 = some (GoError.other "timeout") ∧
    (Scrape demoParser srcC emptyDB).2 = emptyDB :=
  Scrape_parse_failure demoParser srcC emptyDB (GoError.other "timeout") rfl

/-! ## Claims about `Run` -/

/-- C5: for the sources loaded by `Run`, each source is scraped exactly once; `Run`
returns nil if and only if every `Scrape` returned nil; the failure list `errs`
has exactly one entry per failed `Scrape` and none for a successful one, each
entry being made of that source's `Link` and the text of its error; a non-nil
result of `Run` is the error whose text joins these entries. -/
theorem Run_reports_failures (parse : Parser) (sources : List Source) (sched : Schedule)
    (db : DB) :
    ((runOutcomes parse (sched.order sources) db).map Prod.fst).Perm sources ∧
    ((Run parse (.ok sources) sched db).1 = none ↔
      ∀ p ∈ runOutcomes parse (sched.order sources) db, p.2 = none) ∧
    (RunErrs parse sched sources db).1
      = (runOutcomes parse (sched.order sources) db).filterMap
          (fun p => p.2.map (fun err =>
            "error scraping source " ++ p.1.Link ++ ": " ++ err.Error)) ∧
    (∀ err, (Run parse (.ok sources) sched db).1 = some err →
      err = .other ("error: \n" ++ "\n".intercalate (RunErrs parse sched sources db).1)) := by
  have herrs : (RunErrs parse sched sources db).1
      = (runOutcomes parse (sched.order sources) db).filterMap
          (fun p => p.2.map (fun err =>
            "error scraping source " ++ p.1.Link ++ ": " ++ err.Error)) := by
    simp [RunErrs, runTasks_fst]
  refine ⟨?_, ?_, herrs, ?_⟩
  · rw [runOutcomes_fst]
    exact sched.perm sources
  · rw [Run_ok_fst, herrs]
    constructor
    · intro h p hp
      by_contra hne
      obtain ⟨err, herr⟩ := Option.ne_none_iff_exists'.mp hne
      have hmem : ("error scraping source " ++ p.1.Link ++ ": " ++ err.Error) ∈
          (runOutcomes parse (sched.order sources) db).filterMap
            (fun p => p.2.map (fun err =>
              "error scraping source " ++ p.1.Link ++ ": " ++ err.Error)) :=
        List.mem_filterMap.mpr ⟨p, hp, by simp [herr]⟩
      split at h
      · rename_i hlen
        rw [List.length_eq_zero.mp hlen] at hmem
        simp at hmem
      · cases h
    · intro h
      have hnil : (runOutcomes parse (sched.order sources) db).filterMap
          (fun p => p.2.map (fun err =>
            "error scraping source " ++ p.1.Link ++ ": " ++ err.Error)) = [] := by
        rw [List.filterMap_eq_nil_iff]
        intro p hp
        simp [h p hp]
      rw [hnil]
      rfl
  · intro err h
    rw [Run_ok_fst] at h
    split at h
    · cases h
    · exact (Option.some.inj h).symm

/-- C6: every article of every source whose `Scrape` succeeded during a run is stored
when `Run` returns, wherever the failing sources stand in the list and in whatever
order the goroutines take effect.  Example: of three sources, two decode to five
items each with unique URLs and one times out; ten articles are stored (those of
the two sources) and the failure list has exactly one entry, naming the endpoint
that timed out. -/
theorem Run_isolation (parse : Parser) (sources : List Source) (sched : Schedule) (db : DB)
    (src : Source) (feed : Feed) (item : Item)
    (hmem : (src, none) ∈ runOutcomes parse (sched.order sources) db)
    (hparse : parse src.Link = .ok feed) (hitem : item ∈ feed.Items) :
    buildArticle src item ∈ (Run parse (.ok sources) sched db).2.articles ∧
    (∀ (three : List Source) (sched3 : Schedule), three.Perm [srcA, srcB, srcC] →
      (Run demoParser (.ok three) sched3 emptyDB).2.articles.length = 10 ∧
      (∀ a ∈ batchOf demoParser srcA ++ batchOf demoParser srcB,
        a ∈ (Run demoParser (.ok three) sched3 emptyDB).2.articles) ∧
      (RunErrs demoParser sched3 three emptyDB).1 = ["error scraping source C: timeout"]) := by
  constructor
  · rw [Run_ok_snd]
    exact runOutcomes_success_mem parse _ db src feed item hmem hparse hitem
  · intro three sched3 hperm
    rw [Run_ok_snd]
    simp only [RunErrs]
    rcases perm_three srcA srcB srcC _ ((sched3.perm three).trans hperm)
      with h | h | h | h | h | h <;> rw [h] <;> decide

theorem Run_isolation_witness :
    buildArticle srcB (plainItem "b2")
      ∈ (Run demoParser (.ok [srcC, srcA, srcB]) Schedule.lifo emptyDB).2.articles :=
  (Run_isolation demoParser [srcC, srcA, srcB] Schedule.lifo emptyDB srcB
    { Items := [plainItem "b1", plainItem "b2", plainItem "b3", plainItem "b4",
                plainItem "b5"] } (plainItem "b2") (by decide) rfl (by decide)).1

/-- C7: on a table that satisfies the unique constraint on `Article.Url`, with the
same sources and the same feed contents, a second `Run` after a first one leaves
the stored articles exactly as the first left them, and no URL occurs in two
stored rows (whatever the order in which the goroutines of either run take
effect). -/
theorem Run_twice_same_articles (parse : Parser) (sources : List Source)
    (sched1 sched2 : Schedule) (db : DB) (huniq : (urls db.articles).Nodup) :
    (Run parse (.ok sources) sched2 (Run parse (.ok sources) sched1 db).2).2.articles
      = (Run parse (.ok sources) sched1 db).2.articles ∧
    (urls (Run parse (.ok sources) sched2
      (Run parse (.ok sources) sched1 db).2).2.articles).Nodup := by
  have hfirst : (urls (Run parse (.ok sources) sched1 db).2.articles).Nodup := by
    rw [Run_ok_snd]
    exact runTasks_urls_nodup parse _ db huniq
  have hsame : (Run parse (.ok sources) sched2 (Run parse (.ok sources) sched1 db).2).2.articles
      = (Run parse (.ok sources) sched1 db).2.articles := by
    rw [Run_ok_snd parse sources sched2]
    apply runTasks_of_settled
    intro s hs
    have hs1 : s ∈ sched1.order sources :=
      (sched1.perm sources).mem_iff.mpr ((sched2.perm sources).mem_iff.mp hs)
    rw [Run_ok_snd]
    exact runTasks_settles parse _ db s hs1
  exact ⟨hsame, by rw [hsame]; exact hfirst⟩

theorem Run_twice_same_articles_witness :
    (Run demoParser (.ok [srcA, srcB, srcC]) Schedule.lifo
      (Run demoParser (.ok [srcA, srcB, srcC]) Schedule.fifo emptyDB).2).2.articles
      = (Run demoParser (.ok [srcA, srcB, srcC]) Schedule.fifo emptyDB).2.articles :=
  (Run_twice_same_articles demoParser [srcA, srcB, srcC] Schedule.fifo Schedule.lifo emptyDB
    (by decide)).1

/-- C8: evaluation at a feed that lists one stored URL and four new ones: `Scrape`
returns the unique-constraint error, the table is left as it was, and none of the
four new items is stored. -/
theorem Scrape_stored_url_rejects_batch :
    (Scrape demoParser srcA staleDB).1 = some duplicateKeyError ∧
    (Scrape demoParser srcA staleDB).2.articles = staleDB.articles ∧
    (∀ link ∈ ["a2", "a3", "a4", "a5"],
      buildArticle srcA (plainItem link) ∉ (Scrape demoParser srcA staleDB).2.articles) := by
  decide

/-- C9: when the source registry holds no sources, the listing made by `Run` returns
the empty list (a listing never returns the record-not-found result, whatever
the registry holds), and `Run` scrapes no source, leaves the database (stored
articles and calls received) as it was and returns nil. -/
theorem Run_empty_registry (parse : Parser) (sched : Schedule) (db : DB) :
    Find none [] = .ok [] ∧
    (∀ (fault : Option String) (registry : List Source),
      Find fault registry ≠ .error GoError.ErrRecordNotFound) ∧
    runOutcomes parse (sched.order []) db = [] ∧
    Run parse (Find none []) sched db = (none, db) := by
  have hnil : sched.order [] = [] := List.Perm.eq_nil (sched.perm [])
  refine ⟨rfl, ?_, by rw [hnil]; rfl, ?_⟩
  · intro fault registry
    cases fault <;> simp [Find]
  · simp [Find, Run, RunErrs, hnil, runTasks]

/-- C10 fails as stated.  With one earlier article of the source stored under
another URL, `Run` returns nil but the source owns six stored articles, not the
five of its feed; and when two sources list the same new URL, `Run` returns an
error. -/
theorem Run_count_differs_from_items :
    ((Run demoParser (.ok [srcA]) Schedule.fifo olderDB).1 = none ∧
      (feedItems demoParser srcA).length = 5 ∧
      countBySource (Run demoParser (.ok [srcA]) Schedule.fifo olderDB).2 srcA.ID = 6) ∧
    (Run sharedParser (.ok [srcA, srcB]) Schedule.fifo emptyDB).1 ≠ none := by
  decide

/-- C10, amended: for registered sources with pairwise distinct IDs whose feeds all
decode to at least one item, when the URLs of all these items are pairwise
distinct (within and across feeds) and none is stored yet, `Run` returns nil and
afterwards every source owns as many stored articles as it owned before plus
the number of items of its feed, hence more than zero. -/
theorem Run_counts_new_articles (parse : Parser) (sources : List Source) (sched : Schedule)
    (db : DB)
    (hids : (sources.map Source.ID).Nodup)
    (hfeeds : ∀ s ∈ sources, ∃ feed, parse s.Link = .ok feed ∧ feed.Items ≠ [])
    (hnew : ∀ s ∈ sources, ∀ item ∈ feedItems parse s, item.Link ∉ urls db.articles)
    (hdistinct : ((sources.flatMap (feedItems parse)).map Item.Link).Nodup) :
    (Run parse (.ok sources) sched db).1 = none ∧
    ∀ s ∈ sources,
      countBySource (Run parse (.ok sources) sched db).2 s.ID
        = countBySource db s.ID + (feedItems parse s).length ∧
      0 < countBySource (Run parse (.ok sources) sched db).2 s.ID := by
  have hperm := sched.perm sources
  have hrun := runTasks_fresh parse (sched.order sources) [] db
    (fun s hs => by
      obtain ⟨feed, hfeed, _⟩ := hfeeds s (hperm.mem_iff.mp hs)
      exact ⟨feed, hfeed⟩)
    (fun s hs => hnew s (hperm.mem_iff.mp hs))
    (((hperm.flatMap_right (feedItems parse)).map Item.Link).nodup_iff.mpr hdistinct)
  have hcount : ∀ s ∈ sources,
      countBySource (Run parse (.ok sources) sched db).2 s.ID
        = countBySource db s.ID + (feedItems parse s).length := by
    intro s hs
    rw [Run_ok_snd]
    simp only [RunErrs, countBySource]
    rw [hrun.2, List.filter_append, List.length_append,
      filter_flatMap_batchOf_mem parse _ s ((hperm.map Source.ID).nodup_iff.mpr hids)
        (hperm.mem_iff.mpr hs)]
    simp [batchOf, buildArticles_length]
  refine ⟨?_, fun s hs => ⟨hcount s hs, ?_⟩⟩
  · rw [Run_ok_fst]
    simp only [RunErrs]
    rw [hrun.1]
    rfl
  · rw [hcount s hs]
    obtain ⟨feed, hfeed, hne⟩ := hfeeds s hs
    have hitems : feedItems parse s = feed.Items := by simp [feedItems, hfeed]
    have hpos : 0 < feed.Items.length := List.length_pos.mpr hne
    rw [hitems]
    omega

theorem Run_counts_new_articles_witness :
    (Run demoParser (.ok [srcA, srcB]) Schedule.lifo olderDB).1 = none ∧
    ∀ s ∈ [srcA, srcB],
      countBySource (Run demoParser (.ok [srcA, srcB]) Schedule.lifo olderDB).2 s.ID
        = countBySource olderDB s.ID + (feedItems demoParser s).length ∧
      0 < countBySource (Run demoParser (.ok [srcA, srcB]) Schedule.lifo olderDB).2 s.ID :=
  Run_counts_new_articles demoParser [srcA, srcB] Schedule.lifo olderDB (by decide)
    (by
      intro s hs
      simp only [List.mem_cons, List.mem_singleton, List.not_mem_nil, or_false] at hs
      rcases hs with rfl | rfl
      · exact ⟨{ Items := [pictureItem "a1", plainItem "a2", plainItem "a3", plainItem "a4",
                           plainItem "a5"] }, rfl, by simp⟩
      · exact ⟨{ Items := [plainItem "b1", plainItem "b2", plainItem "b3", plainItem "b4",
                           plainItem "b5"] }, rfl, by simp⟩)
    (by decide) (by decide)

/-! ## The scheduler job -/

theorem tickJob_c (parse : Parser) (find : Except GoError (List Source)) (sched : Schedule)
    (s : Scheduler) : (tickJob parse find sched s).c = s.c := by
  simp only [tickJob]
  cases (Run parse find sched s.db).1 <;> rfl

theorem tickJob_runs (parse : Parser) (find : Except GoError (List Source)) (sched : Schedule)
    (s : Scheduler) :
    (tickJob parse find sched s).runs = s.runs ++ [(Run parse find sched s.db).1] := by
  simp only [tickJob]
  cases (Run parse find sched s.db).1 <;> rfl

theorem tickJob_db (parse : Parser) (find : Except GoError (List Source)) (sched : Schedule)
    (s : Scheduler) : (tickJob parse find sched s).db = (Run parse find sched s.db).2 := by
  simp only [tickJob]
  cases (Run parse find sched s.db).1 <;> rfl

theorem tickJob_logs (parse : Parser) (find : Except GoError (List Source)) (sched : Schedule)
    (s : Scheduler) :
    (tickJob parse find sched s).logs
      = match (Run parse find sched s.db).1 with
        | none => s.logs
        | some err => s.logs ++ [("Failed to run RSS scraping", err)] := by
  simp only [tickJob]
  cases (Run parse find sched s.db).1 <;> rfl

theorem cronTick_single (parse : Parser) (sched : Schedule)
    (find : Except GoError (List Source)) (s : Scheduler) (spec : String)
    (hc : s.c = { entries := [spec], running := true }) :
    cronTick parse sched find s = tickJob parse find sched s := by
  simp [cronTick, hc]

theorem cronTicks_single (parse : Parser) (sched : Schedule)
    (finds : List (Except GoError (List Source))) (s : Scheduler) (spec : String)
    (hc : s.c = { entries := [spec], running := true }) :
    (cronTicks parse sched finds s).c = s.c ∧
    (cronTicks parse sched finds s).runs.length = s.runs.length + finds.length := by
  induction finds generalizing s with
  | nil => exact ⟨rfl, rfl⟩
  | cons find rest ih =>
    simp only [cronTicks]
    rw [cronTick_single parse sched find s spec hc]
    obtain ⟨h1, h2⟩ := ih (tickJob parse find sched s) (by rw [tickJob_c]; exact hc)
    refine ⟨by rw [h1, tickJob_c], ?_⟩
    rw [h2, tickJob_runs]
    simp only [List.length_append, List.length_cons, List.length_nil]
    omega

/-- C12: whatever `Run` returns, the job registered by `Start` invokes `Run` exactly
once, writes one error record exactly when `Run` returns a non-nil error, and
leaves the cron as it was (same entries, still started); hence after `Start`
every due time invokes `Run` once more, whatever the earlier runs returned. -/
theorem tickJob_runs_once_keeps_schedule (parse : Parser)
    (find : Except GoError (List Source)) (sched : Schedule) (s : Scheduler) :
    (tickJob parse find sched s).runs = s.runs ++ [(Run parse find sched s.db).1] ∧
    (tickJob parse find sched s).db = (Run parse find sched s.db).2 ∧
    ((Run parse find sched s.db).1 = none → (tickJob parse find sched s).logs = s.logs) ∧
    (∀ err, (Run parse find sched s.db).1 = some err →
      (tickJob parse find sched s).logs = s.logs ++ [("Failed to run RSS scraping", err)]) ∧
    (tickJob parse find sched s).c = s.c ∧
    (∀ (db : DB) (finds : List (Except GoError (List Source))),
      (cronTicks parse sched finds (Start none (NewScheduler db))).c
        = { entries := ["0 0 * * * *"], running := true } ∧
      (cronTicks parse sched finds (Start none (NewScheduler db))).runs.length
        = finds.length) := by
  refine ⟨tickJob_runs parse find sched s, tickJob_db parse find sched s, ?_, ?_,
    tickJob_c parse find sched s, ?_⟩
  · intro h
    rw [tickJob_logs, h]
  · intro err h
    rw [tickJob_logs, h]
  · intro db finds
    obtain ⟨h1, h2⟩ := cronTicks_single parse sched finds (Start none (NewScheduler db))
      "0 0 * * * *" rfl
    rw [h1, h2]
    exact ⟨rfl, by simp [Start, NewScheduler]⟩

/-! ## The paging helper -/

theorem GetPagingParams_accepted (ctx : Context) (pageID pageSize : Int)
    (hid : Atoi (ctx.Query "page_id") = .ok pageID) (hid1 : 1 ≤ pageID)
    (hsize : Atoi (ctx.Query "page_size") = .ok pageSize) (hsize1 : 1 ≤ pageSize)
    (hsize10 : pageSize ≤ 10) :
    GetPagingParams ctx = ((pageID, pageSize), ctx) := by
  have h1 : ¬ pageID < 1 := by omega
  have h2 : ¬ (pageSize < 1 ∨ pageSize > maxPageSize) := by
    simp only [maxPageSize]; omega
  simp [GetPagingParams, hid, hsize, h1, h2]

theorem GetPagingParams_cases (ctx : Context) :
    (∃ pageID pageSize : Int,
      Atoi (ctx.Query "page_id") = .ok pageID ∧ 1 ≤ pageID ∧
      Atoi (ctx.Query "page_size") = .ok pageSize ∧ 1 ≤ pageSize ∧ pageSize ≤ 10 ∧
      GetPagingParams ctx = ((pageID, pageSize), ctx)) ∨
    ((GetPagingParams ctx).1 = (0, 0) ∧
      ∃ msg, (GetPagingParams ctx).2 = ctx.JSON 400 { Message := msg }) := by
  cases hid : Atoi (ctx.Query "page_id") with
  | error e =>
    right
    simp only [GetPagingParams, hid, StatusBadRequest]
    exact ⟨trivial, _, rfl⟩
  | ok pageID =>
    by_cases h1 : pageID < 1
    · right
      simp only [GetPagingParams, hid, h1, if_true, StatusBadRequest]
      exact ⟨trivial, _, rfl⟩
    · cases hsize : Atoi (ctx.Query "page_size") with
      | error e =>
        right
        simp only [GetPagingParams, hid, h1, if_false, hsize, StatusBadRequest]
        exact ⟨trivial, _, rfl⟩
      | ok pageSize =>
        by_cases h2 : pageSize < 1 ∨ pageSize > maxPageSize
        · right
          simp only [GetPagingParams, hid, h1, if_false, hsize, h2, if_true, StatusBadRequest]
          exact ⟨trivial, _, rfl⟩
        · left
          have h2' : ¬ (pageSize < 1 ∨ pageSize > 10) := h2
          exact ⟨pageID, pageSize, rfl, by omega, rfl, by omega, by omega,
            by simp [GetPagingParams, hid, h1, hsize, h2]⟩

/-- C13: evaluation at `page_id=9223372036854775807`, `page_size=10`: the helper
accepts the parameters (no response written), the caller does not return early,
and the offset `(pageID - 1) * pageSize` it passes on is `-20`. -/
theorem ListArticlesPaging_negative_offset :
    GetPagingParams hugePageRequest = ((9223372036854775807, 10), hugePageRequest) ∧
    ListArticlesPaging hugePageRequest = some (10, -20) := by
  decide

end NewsAggr
